import Mathlib

/-!
Verification of the PB raw-stream decoder of PyArchAppl
(`main/data/pb/decode.py`), embedded shallowly in Lean 4.

Byte strings are modelled as `List Nat` (each element a byte value).
The generated protobuf module `EPICSEvent_pb2` is not part of the
source tree, so the wire-level message parsers are a parameter of the
development (`PBCodec`); everything in `decode.py` itself is embedded
faithfully.
-/

set_option autoImplicit false
set_option maxRecDepth 100000

namespace PyArchAppl

/-- A byte, as an unbounded natural number (all source operations only
compare bytes against constants, so no modular arithmetic is needed). -/
abbrev Byte := Nat

/-! ### Frame unescaper (`decode.py`, `unescape`)

The source builds the regex `(\x1b\x01|\x1b\x02|\x1b\x03)` and applies
`re.sub` with the escape table.  `re.sub` finds non-overlapping matches
left-to-right and never re-scans replaced output, which is exactly the
following recursion. -/

/-- Model of `unescape(line)`: replace each 2-byte escape sequence
`0x1B 0x01 / 0x1B 0x02 / 0x1B 0x03` by the literal `ESC / LF / CR`,
scanning left to right without re-scanning the output. -/
def unescape : List Byte → List Byte
  | [] => []
  | [b] => [b]
  | b :: c :: rest =>
    if b = 0x1b then
      if c = 0x01 then 0x1b :: unescape rest
      else if c = 0x02 then 0x0a :: unescape rest
      else if c = 0x03 then 0x0d :: unescape rest
      else b :: unescape (c :: rest)
    else b :: unescape (c :: rest)

/-- Modelled from the spec: the reference escape encoder that produced the
wire data (the server side, not in this repository).  It replaces the
literal bytes `ESC 0x1B`, `LF 0x0A`, `CR 0x0D` by the 2-byte sequences
`0x1B 0x01`, `0x1B 0x02`, `0x1B 0x03` of the Escape Table. -/
def escape : List Byte → List Byte
  | [] => []
  | b :: rest =>
    if b = 0x1b then 0x1b :: 0x01 :: escape rest
    else if b = 0x0a then 0x1b :: 0x02 :: escape rest
    else if b = 0x0d then 0x1b :: 0x03 :: escape rest
    else b :: escape rest

/-- Decides whether the list contains a 2-byte escape sequence
(an `0x1B` immediately followed by `0x01`, `0x02` or `0x03`). -/
def hasEscapePair : List Byte → Bool
  | b :: c :: rest =>
    (b = 0x1b && (c = 0x01 || c = 0x02 || c = 0x03)) || hasEscapePair (c :: rest)
  | _ => false

/-! ### Python `bytes.strip` and `bytes.split(b'\n')` -/

/-- The ASCII whitespace bytes stripped by Python's `bytes.strip()`. -/
def isSpaceByte (b : Byte) : Bool :=
  b = 0x20 || b = 0x09 || b = 0x0a || b = 0x0d || b = 0x0b || b = 0x0c

/-- Python `line.strip()`: remove leading and trailing ASCII whitespace. -/
def pyStrip (l : List Byte) : List Byte :=
  ((l.dropWhile isSpaceByte).reverse.dropWhile isSpaceByte).reverse

/-- Python `data.split(b'\n')`: split on `0x0A`, keeping empty pieces
(`b''.split(b'\n') == [b'']`). -/
def splitOnLF : List Byte → List (List Byte)
  | [] => [[]]
  | b :: rest =>
    if b = 0x0a then [] :: splitOnLF rest
    else
      match splitOnLF rest with
      | [] => [[b]]
      | l :: ls => (b :: l) :: ls

/-! ### Protobuf data model

`EPICSEvent_pb2` is generated code absent from the source tree; the
message *contents* are modelled from the spec (§3 Stream Header and
Sample Record), and the wire-level `ParseFromString` functions are a
parameter (`PBCodec` below). -/

/-- Modelled from the spec: the decoded `PayloadInfo` header message of
the missing generated module `EPICSEvent_pb2` — PV name, calendar year,
sample-type tag and extra key/value header pairs. -/
structure PayloadInfo where
  pvname : String
  year : Nat
  type_ : Nat
  headers : List (String × String)
  deriving Repr, DecidableEq

/-- Modelled from the spec: one decoded sample message of the missing
generated module `EPICSEvent_pb2` — seconds into the year, nanoseconds,
payload value (carried opaquely as a string rendering), status and
severity. -/
structure Sample where
  secondsintoyear : Int
  nano : Int
  val : String
  status : Int
  severity : Int
  deriving Repr, DecidableEq

/-- The Python exception classes distinguishable at the decode entry
point: a header-level failure (`PayloadInfo` parse failure, or the
`ValueError`/`KeyError` of an unrecognized type tag), a sample-level
protobuf `DecodeError`, and the `UnboundLocalError` raised when
`header_dict` is referenced before any header line was seen. -/
inductive DecodeErr where
  | headerError
  | sampleError
  | nameError
  deriving Repr, DecidableEq

/-- The wire-level parsers of the missing generated module, as a
parameter: `parseHeader` models `pb.PayloadInfo().ParseFromString`, and
`parseSample n` models `ParseFromString` of the sample message class
registered under name `n` in `SAMPLE_PARSER_MAP`. -/
structure PBCodec where
  parseHeader : List Byte → Except DecodeErr PayloadInfo
  parseSample : String → List Byte → Except DecodeErr Sample

/-! ### Type-tag dispatch (`SAMPLE_PARSER_MAP`, `get_sample_parser`) -/

/-- Modelled from the spec: `pb.PayloadType.Name`, the enum-number to
enum-name map of the missing generated module, over the fixed 15-entry
Sample Type Table in its declared order; numbers outside the table have
no name (`ValueError` in Python). -/
def payloadTypeName (i : Nat) : Option String :=
  [ "SCALAR_STRING", "SCALAR_SHORT", "SCALAR_FLOAT", "SCALAR_ENUM",
    "SCALAR_BYTE", "SCALAR_INT", "SCALAR_DOUBLE",
    "WAVEFORM_STRING", "WAVEFORM_SHORT", "WAVEFORM_FLOAT", "WAVEFORM_ENUM",
    "WAVEFORM_BYTE", "WAVEFORM_INT", "WAVEFORM_DOUBLE",
    "V4_GENERIC_BYTES" ].get? i

/-- Table `SAMPLE_PARSER_MAP` of `decode.py`: enum name to sample message
class (classes are identified by their name string here). -/
def SAMPLE_PARSER_MAP : List (String × String) :=
  [ ("SCALAR_STRING", "ScalarString"),
    ("SCALAR_SHORT", "ScalarShort"),
    ("SCALAR_FLOAT", "ScalarFloat"),
    ("SCALAR_ENUM", "ScalarEnum"),
    ("SCALAR_BYTE", "ScalarByte"),
    ("SCALAR_INT", "ScalarInt"),
    ("SCALAR_DOUBLE", "ScalarDouble"),
    ("WAVEFORM_STRING", "VectorString"),
    ("WAVEFORM_SHORT", "VectorShort"),
    ("WAVEFORM_FLOAT", "VectorFloat"),
    ("WAVEFORM_ENUM", "VectorEnum"),
    ("WAVEFORM_BYTE", "VectorChar"),
    ("WAVEFORM_INT", "VectorInt"),
    ("WAVEFORM_DOUBLE", "VectorDouble"),
    ("V4_GENERIC_BYTES", "V4GenericBytes") ]

/-- First-match association lookup (Python `dict[k]`, as `Option`). -/
def dictLookup (k : String) : List (String × String) → Option String
  | [] => none
  | (k', v) :: d => if k' = k then some v else dictLookup k d

/-- Model of `get_sample_parser(i_type)` of `decode.py`:
`SAMPLE_PARSER_MAP[pb.PayloadType.Name(i_type)]`; `none` models the
`ValueError`/`KeyError` raised for a tag outside the table. -/
def getSampleParser (i_type : Nat) : Option String :=
  match payloadTypeName i_type with
  | none => none
  | some n => dictLookup n SAMPLE_PARSER_MAP

/-! ### Python dict semantics for `header_dict`

A Python dict is insertion-ordered with in-place overwrite on key
collision; modelled as an association list with unique keys. -/

/-- Assignment `d[k] = v` on a Python dict: overwrite in place if the key exists,
else append. -/
def dictInsert (k v : String) (d : List (String × String)) : List (String × String) :=
  if (d.map Prod.fst).contains k then
    d.map fun p => if p.1 = k then (k, v) else p
  else d ++ [(k, v)]

/-- Comprehension over the header pairs: build a dict from the extra
header pairs in order. -/
def dictOf (ps : List (String × String)) : List (String × String) :=
  ps.foldl (fun d p => dictInsert p.1 p.2 d) []

/-! ### Calendar arithmetic (`datetime(year,1,1) - datetime(1970,1,1)`)

Python's `datetime` uses the proleptic Gregorian calendar and
`total_seconds()` of a whole-day difference is exactly `86400 * days`. -/

/-- Gregorian leap-year rule. -/
def isLeapYear (y : Nat) : Bool :=
  (y % 4 = 0 && y % 100 ≠ 0) || y % 400 = 0

/-- Days in calendar year `y`. -/
def daysInYear (y : Nat) : Nat := if isLeapYear y then 366 else 365

/-- Days from year 1 (proleptic Gregorian) up to Jan 1 of year `y`:
CPython's `datetime._days_before_year`. -/
def daysBefore (y : Nat) : Nat :=
  (y - 1) * 365 + (y - 1) / 4 - (y - 1) / 100 + (y - 1) / 400

/-- Signed day count from 1970-01-01 to `y`-01-01. -/
def daysFrom1970 (y : Nat) : Int := (daysBefore y : Int) - (daysBefore 1970 : Int)

/-- Value of `(datetime(year,1,1) - datetime(1970,1,1)).total_seconds()` — exact,
since Python timedeltas carry no leap seconds. -/
def yearInSec (y : Nat) : Int := 86400 * daysFrom1970 y

/-! ### The decode loop (`unpack_raw_data`) -/

/-- One entry appended to `unpacked_data`:
`{'secs': year_in_sec + f.secondsintoyear, 'val': f.val, 'nanos': f.nano,
'status': f.status, 'severity': f.severity}`. -/
structure SampleOut where
  secs : Int
  val : String
  nanos : Int
  status : Int
  severity : Int
  deriving Repr, DecidableEq

/-- The loop-local variables bound by a successful header line:
the sample parser class `f` was instantiated from, `header_dict`, and
`year_in_sec`. -/
structure HeaderState where
  parserName : String
  header_dict : List (String × String)
  year_in_sec : Int
  deriving Repr, DecidableEq

/-- The mutable state of the `for` loop in `unpack_raw_data`:
`unpacked_data`, the sample counter `i`, the `hit_header` flag, and the
header-bound locals (`none` while they are still unbound). -/
structure DecState where
  unpacked_data : List SampleOut
  i : Nat
  hit_header : Bool
  header : Option HeaderState
  deriving Repr, DecidableEq

/-- State at function entry: `unpacked_data = []`, `i = 0`,
`hit_header = True`, header locals unbound. -/
def initState : DecState := ⟨[], 0, true, none⟩

/-- One returned element `{'meta': ..., 'data': ...}`. -/
structure Block where
  meta : List (String × String)
  data : List SampleOut
  deriving Repr, DecidableEq

/-- One iteration of the loop body of `unpack_raw_data` on a raw line:
strip; blank lines set `hit_header` and continue; otherwise unescape and
either parse a header (rebinding the header locals) or parse a sample
(appending to `unpacked_data`).  An exception is a `.error` result. -/
def stepLine (pb : PBCodec) (st : DecState) (rawLine : List Byte) : Except DecodeErr DecState :=
  let line := pyStrip rawLine
  if line = [] then
    .ok { st with hit_header := true }
  else
    let unescaped_line := unescape line
    if st.hit_header then
      match pb.parseHeader unescaped_line with
      | .error e => .error e
      | .ok I =>
        match getSampleParser I.type_ with
        | none => .error .headerError
        | some pname =>
          .ok { st with
                hit_header := false,
                header := some ⟨pname, dictInsert "name" I.pvname (dictOf I.headers),
                                yearInSec I.year⟩ }
    else
      match st.header with
      | none => .error .nameError
      | some h =>
        match pb.parseSample h.parserName unescaped_line with
        | .error e => .error e
        | .ok f =>
          .ok { st with
                i := st.i + 1,
                unpacked_data := st.unpacked_data ++
                  [⟨h.year_in_sec + f.secondsintoyear, f.val, f.nano, f.status, f.severity⟩] }

/-- Run the loop over a list of raw lines and build the return value.
After the loop, `decode.py` interpolates `header_dict['name']` into a
log string and returns `[{'meta': header_dict, 'data': unpacked_data}]`;
if no header line was ever processed, `header_dict` is an unbound local
and Python raises `UnboundLocalError` (`DecodeErr.nameError`). -/
def processLines (pb : PBCodec) (lines : List (List Byte)) : Except DecodeErr (List Block) :=
  match lines.foldlM (stepLine pb) initState with
  | .error e => .error e
  | .ok st =>
    match st.header with
    | none => .error .nameError
    | some h => .ok [⟨h.header_dict, st.unpacked_data⟩]

/-- Model of `unpack_raw_data(data)` of `decode.py`: split the buffer on `\n` and
run the loop. -/
def unpack_raw_data (pb : PBCodec) (data : List Byte) : Except DecodeErr (List Block) :=
  processLines pb (splitOnLF data)

/-! ### A concrete codec instance

The wire format of the generated protobuf messages is not in the source
tree, so concrete inputs are built against this stand-in codec: a few
fixed single-byte lines decode to fixed headers/samples, everything else
fails, with the error class each `ParseFromString` raises in Python. -/

/-- Modelled from the spec: a concrete `PBCodec` standing in for the
absent generated parsers, used to instantiate the codec-generic theorems
on concrete buffers.  Headers: byte `72` → `("PV1", 1970, SCALAR_DOUBLE)`;
byte `75` → `("PV2", 1971, SCALAR_DOUBLE)`; byte `85` → a header whose
type tag `99` is outside the Sample Type Table; byte `89` →
`("PV2020", 2020, SCALAR_DOUBLE)`; byte `78` → `("PVN", 1970,
SCALAR_DOUBLE)` with an extra header pair `("name", "shadowed")`.
Samples: byte `65` → `(0, 0, "1.5", 0, 0)`; byte `66` → `(1, 0, "2.5", 0, 0)`. -/
def testCodec : PBCodec where
  parseHeader l :=
    if l = [72] then .ok ⟨"PV1", 1970, 6, []⟩
    else if l = [75] then .ok ⟨"PV2", 1971, 6, []⟩
    else if l = [85] then .ok ⟨"PVU", 1970, 99, []⟩
    else if l = [89] then .ok ⟨"PV2020", 2020, 6, []⟩
    else if l = [78] then .ok ⟨"PVN", 1970, 6, [("name", "shadowed"), ("units", "mA")]⟩
    else .error .headerError
  parseSample _ l :=
    if l = [65] then .ok ⟨0, 0, "1.5", 0, 0⟩
    else if l = [66] then .ok ⟨1, 0, "2.5", 0, 0⟩
    else .error .sampleError

/-! ### Helper lemmas on `unescape` -/

lemma unescape_esc1 (l : List Byte) : unescape (0x1b :: 0x01 :: l) = 0x1b :: unescape l := by
  simp [unescape]

lemma unescape_esc2 (l : List Byte) : unescape (0x1b :: 0x02 :: l) = 0x0a :: unescape l := by
  simp [unescape]

lemma unescape_esc3 (l : List Byte) : unescape (0x1b :: 0x03 :: l) = 0x0d :: unescape l := by
  simp [unescape]

lemma unescape_cons_pass {b : Byte} (l : List Byte) (hb : b ≠ 0x1b) :
    unescape (b :: l) = b :: unescape l := by
  cases l with
  | nil => simp [unescape]
  | cons c r => simp [unescape, hb]

lemma unescape_esc_bad {c : Byte} (l : List Byte)
    (h1 : c ≠ 0x01) (h2 : c ≠ 0x02) (h3 : c ≠ 0x03) :
    unescape (0x1b :: c :: l) = 0x1b :: unescape (c :: l) := by
  simp [unescape, h1, h2, h3]

/-- C4: for every byte sequence `x` (including those containing literal
ESC, LF and CR bytes), `unescape` applied to the output of the reference
escape encoder recovers `x` exactly: `unescape (escape x) = x`. -/
theorem unescape_escape_roundtrip : ∀ x : List Byte, unescape (escape x) = x := by
  intro x
  induction x with
  | nil => rfl
  | cons b r ih =>
    by_cases h1 : b = 0x1b
    · subst h1
      rw [show escape (0x1b :: r) = 0x1b :: 0x01 :: escape r by simp [escape],
          unescape_esc1, ih]
    · by_cases h2 : b = 0x0a
      · subst h2
        rw [show escape (0x0a :: r) = 0x1b :: 0x02 :: escape r by simp [escape],
            unescape_esc2, ih]
      · by_cases h3 : b = 0x0d
        · subst h3
          rw [show escape (0x0d :: r) = 0x1b :: 0x03 :: escape r by simp [escape],
              unescape_esc3, ih]
        · rw [show escape (b :: r) = b :: escape r by simp [escape, h1, h2, h3],
              unescape_cons_pass _ h1, ih]

lemma unescape_of_no_pair : ∀ l : List Byte, hasEscapePair l = false → unescape l = l := by
  intro l
  induction l with
  | nil => intro _; rfl
  | cons b t ih =>
    intro h
    cases t with
    | nil => rfl
    | cons c r =>
      simp only [hasEscapePair, Bool.or_eq_false_iff, Bool.and_eq_false_iff] at h
      obtain ⟨hpair, hrec⟩ := h
      by_cases hb : b = 0x1b
      · subst hb
        rcases hpair with hbad | hc
        · exact absurd hbad (by decide)
        · rw [unescape_esc_bad r (by simpa using hc.1.1) (by simpa using hc.1.2)
                (by simpa using hc.2),
              ih (by simpa [hasEscapePair] using hrec)]
      · rw [unescape_cons_pass _ hb, ih (by simpa [hasEscapePair] using hrec)]

/-- C5: `unescape` replaces each occurrence of `0x1B 0x01 / 0x1B 0x02 /
0x1B 0x03` by `0x1B / 0x0A / 0x0D` respectively, scanning left-to-right
without re-scanning replaced output (the literal produced by a
replacement never combines with following bytes into a new escape
sequence, e.g. on `[0x1B, 0x01, 0x02]`); lines containing no escape
sequence are unchanged, and an ESC byte not followed by
`0x01/0x02/0x03` passes through untouched. -/
theorem unescape_behaviour :
    (∀ l : List Byte, hasEscapePair l = false → unescape l = l) ∧
    (∀ rest : List Byte,
      unescape (0x1b :: 0x01 :: rest) = 0x1b :: unescape rest ∧
      unescape (0x1b :: 0x02 :: rest) = 0x0a :: unescape rest ∧
      unescape (0x1b :: 0x03 :: rest) = 0x0d :: unescape rest) ∧
    (∀ (c : Byte) (rest : List Byte), c ≠ 0x01 → c ≠ 0x02 → c ≠ 0x03 →
      unescape (0x1b :: c :: rest) = 0x1b :: unescape (c :: rest)) ∧
    unescape [0x1b, 0x01, 0x02] = [0x1b, 0x02] :=
  ⟨unescape_of_no_pair,
   fun rest => ⟨unescape_esc1 rest, unescape_esc2 rest, unescape_esc3 rest⟩,
   fun _ rest h1 h2 h3 => unescape_esc_bad rest h1 h2 h3,
   by decide⟩

/-- Witness for C5's hypotheses at concrete inputs: a line with an
unpaired ESC has no escape pair and passes through unchanged, and an
ESC followed by `0x05` is passed through untouched. -/
theorem unescape_behaviour_witness :
    unescape [65, 0x1b, 66] = [65, 0x1b, 66] ∧
    unescape [0x1b, 0x05, 65] = 0x1b :: unescape [0x05, 65] :=
  ⟨unescape_behaviour.1 [65, 0x1b, 66] (by decide),
   unescape_behaviour.2.2.1 0x05 [65] (by decide) (by decide) (by decide)⟩

/-! ### Helper lemmas on the decode loop -/

lemma stepLine_blank (pb : PBCodec) (st : DecState) (raw : List Byte)
    (h : pyStrip raw = []) :
    stepLine pb st raw = .ok { st with hit_header := true } := by
  simp [stepLine, h]

lemma foldl_step_append_ok {pb : PBCodec} (l1 l2 : List (List Byte)) {st st' : DecState}
    (h : l1.foldlM (stepLine pb) st = .ok st') :
    (l1 ++ l2).foldlM (stepLine pb) st = l2.foldlM (stepLine pb) st' := by
  rw [List.foldlM_append, h]
  rfl

lemma foldl_step_append_err {pb : PBCodec} (l1 l2 : List (List Byte)) {st : DecState}
    {e : DecodeErr} (h : l1.foldlM (stepLine pb) st = .error e) :
    (l1 ++ l2).foldlM (stepLine pb) st = .error e := by
  rw [List.foldlM_append, h]
  rfl

lemma foldl_step_cons_ok {pb : PBCodec} {x : List Byte} (xs : List (List Byte))
    {st st' : DecState} (h : stepLine pb st x = .ok st') :
    (x :: xs).foldlM (stepLine pb) st = xs.foldlM (stepLine pb) st' := by
  rw [List.foldlM_cons, h]
  rfl

lemma foldl_step_cons_err {pb : PBCodec} {x : List Byte} (xs : List (List Byte))
    {st : DecState} {e : DecodeErr} (h : stepLine pb st x = .error e) :
    (x :: xs).foldlM (stepLine pb) st = .error e := by
  rw [List.foldlM_cons, h]
  rfl

lemma processLines_fold_err {pb : PBCodec} {lines : List (List Byte)} {e : DecodeErr}
    (h : lines.foldlM (stepLine pb) initState = .error e) :
    processLines pb lines = .error e := by
  unfold processLines
  rw [h]

lemma processLines_eq_of_fold_eq {pb : PBCodec} {l1 l2 : List (List Byte)}
    (h : l1.foldlM (stepLine pb) initState = l2.foldlM (stepLine pb) initState) :
    processLines pb l1 = processLines pb l2 := by
  unfold processLines
  rw [h]

lemma foldl_step_blanks (pb : PBCodec) :
    ∀ blanks : List (List Byte), (∀ b ∈ blanks, pyStrip b = []) →
      blanks.foldlM (stepLine pb) initState = .ok initState := by
  intro blanks
  induction blanks with
  | nil => intro _; rfl
  | cons b bs ih =>
    intro h
    rw [foldl_step_cons_ok bs (stepLine_blank pb initState b (h b (by simp)))]
    exact ih fun x hx => h x (by simp [hx])

/-! ### C1: shape of the returned sequence -/

/-- Counterexample to C1: a buffer with two blocks (header `PV1` + one
sample, blank line, header `PV2` + one sample) decodes to a single
`(header, samples)` pair — not two — whose metadata is the second
block's header and whose sample list merges both blocks' samples. -/
theorem unpack_two_blocks_merged :
    unpack_raw_data testCodec [72, 0x0a, 65, 0x0a, 0x0a, 75, 0x0a, 66] =
      .ok [⟨[("name", "PV2")],
            [⟨0, "1.5", 0, 0, 0⟩, ⟨31536001, "2.5", 0, 0, 0⟩]⟩] ∧
    List.length [(⟨[("name", "PV2")],
            [⟨0, "1.5", 0, 0, 0⟩, ⟨31536001, "2.5", 0, 0, 0⟩]⟩ : Block)] = 1 :=
  ⟨rfl, rfl⟩

/-- C1 (amended): whenever `unpack_raw_data` returns at all, it returns
exactly ONE `(header, samples)` pair regardless of the number of blocks
in the input; on a two-block input the single pair carries the last
block's header metadata and the samples of all blocks concatenated in
input order. -/
theorem unpack_returns_single_pair :
    (∀ (pb : PBCodec) (data : List Byte) (blocks : List Block),
        unpack_raw_data pb data = .ok blocks → blocks.length = 1) ∧
    unpack_raw_data testCodec [72, 0x0a, 65, 0x0a, 0x0a, 75, 0x0a, 66] =
      .ok [⟨[("name", "PV2")],
            [⟨0, "1.5", 0, 0, 0⟩, ⟨31536001, "2.5", 0, 0, 0⟩]⟩] := by
  refine ⟨?_, rfl⟩
  intro pb data blocks h
  unfold unpack_raw_data processLines at h
  split at h
  · cases h
  · split at h
    · cases h
    · cases h
      rfl

/-- Witness for C1's amended theorem: a one-block buffer decodes
successfully and the result indeed has exactly one element. -/
theorem unpack_returns_single_pair_witness :
    List.length [(⟨[("name", "PV1")], [⟨0, "1.5", 0, 0, 0⟩]⟩ : Block)] = 1 :=
  unpack_returns_single_pair.1 testCodec [72, 0x0a, 65]
    [⟨[("name", "PV1")], [⟨0, "1.5", 0, 0, 0⟩]⟩] rfl

/-! ### C2: unknown sample-type tag fails closed -/

/-- C2: if the first non-blank line of the buffer is a header whose
declared sample-type tag lies outside the fixed 15-entry Sample Type
Table (`getSampleParser` finds no parser), the decode call fails with
the header-level error — a type distinguishable from the sample-level
error — and returns no Blocks at all. -/
theorem unknown_tag_fails_closed :
    ∀ (pb : PBCodec) (data : List Byte) (blanks : List (List Byte))
      (hline : List Byte) (rest : List (List Byte)) (I : PayloadInfo),
      splitOnLF data = blanks ++ hline :: rest →
      (∀ b ∈ blanks, pyStrip b = []) →
      pyStrip hline ≠ [] →
      pb.parseHeader (unescape (pyStrip hline)) = .ok I →
      getSampleParser I.type_ = none →
      unpack_raw_data pb data = .error .headerError := by
  intro pb data blanks hline rest I hsplit hblanks hnb hparse htag
  have hstep : stepLine pb initState hline = .error .headerError := by
    simp [stepLine, hnb, hparse, htag, initState]
  unfold unpack_raw_data
  rw [hsplit]
  exact processLines_fold_err
    (by rw [foldl_step_append_ok blanks _ (foldl_step_blanks pb blanks hblanks)]
        exact foldl_step_cons_err rest hstep)

/-- Witness for C2: the concrete buffer `\n` + header byte `85` (whose
header declares tag 99) makes the decode call fail with the header
error. -/
theorem unknown_tag_fails_closed_witness :
    unpack_raw_data testCodec [0x0a, 85] = .error .headerError :=
  unknown_tag_fails_closed testCodec [0x0a, 85] [[]] [85] [] ⟨"PVU", 1970, 99, []⟩
    rfl (by decide) (by decide) rfl rfl

/-! ### C3: behaviour on empty input -/

/-- C3 (code behaviour at the failing inputs): on a zero-length buffer,
and likewise on a buffer of only blank/whitespace lines, no header line
is ever processed, so the final statements of `unpack_raw_data`
reference the unbound local `header_dict` and Python raises
`UnboundLocalError` (`DecodeErr.nameError`) instead of returning an
empty sequence as the spec requires. -/
theorem empty_input_raises : ∀ pb : PBCodec,
    unpack_raw_data pb [] = .error .nameError ∧
    unpack_raw_data pb [0x0a, 0x20, 0x09, 0x0a] = .error .nameError :=
  fun _ => ⟨rfl, rfl⟩

/-! ### C7: idempotence of blank lines -/

lemma processLines_blank_insert :
    ∀ (pb : PBCodec) (p s : List (List Byte)) (bl bl' : List Byte),
      pyStrip bl = [] → pyStrip bl' = [] →
      processLines pb (p ++ bl :: bl' :: s) = processLines pb (p ++ bl :: s) := by
  intro pb p s bl bl' h h'
  apply processLines_eq_of_fold_eq
  cases hf : p.foldlM (stepLine pb) initState with
  | error e =>
    rw [foldl_step_append_err p _ hf, foldl_step_append_err p _ hf]
  | ok st =>
    rw [foldl_step_append_ok p _ hf, foldl_step_append_ok p _ hf,
        foldl_step_cons_ok _ (stepLine_blank pb st bl h),
        foldl_step_cons_ok _ (stepLine_blank pb { st with hit_header := true } bl' h'),
        foldl_step_cons_ok _ (stepLine_blank pb st bl h)]

lemma splitOnLF_ne_nil : ∀ l : List Byte, splitOnLF l ≠ [] := by
  intro l
  cases l with
  | nil => simp [splitOnLF]
  | cons b rest =>
    unfold splitOnLF
    by_cases hb : b = 0x0a
    · simp [hb]
    · rw [if_neg hb]
      cases h : splitOnLF rest <;> simp

lemma splitOnLF_append :
    ∀ a b : List Byte, splitOnLF (a ++ 0x0a :: b) = splitOnLF a ++ splitOnLF b := by
  intro a b
  induction a with
  | nil => simp [splitOnLF]
  | cons x a' ih =>
    by_cases hx : x = 0x0a
    · subst hx
      rw [show ((0x0a :: a') ++ 0x0a :: b) = 0x0a :: (a' ++ 0x0a :: b) from rfl,
          show splitOnLF (0x0a :: (a' ++ 0x0a :: b)) = [] :: splitOnLF (a' ++ 0x0a :: b)
            from by simp [splitOnLF],
          show splitOnLF (0x0a :: a') = [] :: splitOnLF a' from by simp [splitOnLF],
          ih]
      rfl
    · show splitOnLF (x :: (a' ++ 0x0a :: b)) = splitOnLF (x :: a') ++ splitOnLF b
      conv_lhs => rw [splitOnLF]
      conv_rhs => rw [splitOnLF]
      rw [if_neg hx, if_neg hx, ih]
      cases h : splitOnLF a' with
      | nil => exact absurd h (splitOnLF_ne_nil a')
      | cons hd tl => simp

/-- C7: inserting an extra blank line adjacent to an existing blank
line leaves the decoded output unchanged — in general for any
whitespace-only lines of the line sequence, and in particular at the
buffer level, where an extra `\n` inserted beside the `\n\n` separating
two blocks produces an extra blank line and decodes identically: a
blank line only sets the `hit_header` flag, which is idempotent. -/
theorem blank_lines_idempotent :
    (∀ (pb : PBCodec) (p s : List (List Byte)) (bl bl' : List Byte),
      pyStrip bl = [] → pyStrip bl' = [] →
      processLines pb (p ++ bl :: bl' :: s) = processLines pb (p ++ bl :: s)) ∧
    (∀ (pb : PBCodec) (d1 d2 : List Byte),
      unpack_raw_data pb (d1 ++ 0x0a :: 0x0a :: 0x0a :: d2) =
        unpack_raw_data pb (d1 ++ 0x0a :: 0x0a :: d2)) := by
  refine ⟨processLines_blank_insert, ?_⟩
  intro pb d1 d2
  unfold unpack_raw_data
  rw [show (d1 ++ 0x0a :: 0x0a :: 0x0a :: d2) = d1 ++ 0x0a :: (0x0a :: 0x0a :: d2) from rfl,
      show (d1 ++ 0x0a :: 0x0a :: d2) = d1 ++ 0x0a :: (0x0a :: d2) from rfl,
      splitOnLF_append d1 (0x0a :: 0x0a :: d2), splitOnLF_append d1 (0x0a :: d2),
      show splitOnLF (0x0a :: 0x0a :: d2) = [] :: [] :: splitOnLF d2 from by simp [splitOnLF],
      show splitOnLF (0x0a :: d2) = [] :: splitOnLF d2 from by simp [splitOnLF]]
  exact processLines_blank_insert pb (splitOnLF d1) (splitOnLF d2) [] [] rfl rfl

/-- Witness for C7: duplicating the blank line between the two blocks
of the two-block buffer leaves the decoded output unchanged. -/
theorem blank_lines_idempotent_witness :
    processLines testCodec [[72], [65], [], [], [75], [66]] =
      processLines testCodec [[72], [65], [], [75], [66]] :=
  blank_lines_idempotent.1 testCodec [[72], [65]] [[75], [66]] [] [] rfl rfl

/-! ### C8: an error mid-buffer yields no partial result -/

/-- C8: `unpack_raw_data` either returns a sequence of Blocks or fails
with an error, never both: if some line mid-buffer makes the loop body
fail — e.g. a data line that does not decode against the active schema
— the whole call returns exactly that error, and the Blocks completed
before the failing line are not returned alongside it. -/
theorem midbuffer_error_no_partial_result :
    ∀ (pb : PBCodec) (data : List Byte) (p rest : List (List Byte))
      (bad : List Byte) (st : DecState) (e : DecodeErr),
      splitOnLF data = p ++ bad :: rest →
      p.foldlM (stepLine pb) initState = .ok st →
      stepLine pb st bad = .error e →
      unpack_raw_data pb data = .error e := by
  intro pb data p rest bad st e hsplit hfold hstep
  unfold unpack_raw_data
  rw [hsplit]
  exact processLines_fold_err
    (by rw [foldl_step_append_ok p _ hfold]
        exact foldl_step_cons_err rest hstep)

/-- Witness for C8: in a buffer whose first block is complete and whose
second block has an undecodable data line (byte `90`), the decode call
returns the sample-level error and no Blocks. -/
theorem midbuffer_error_no_partial_result_witness :
    unpack_raw_data testCodec [72, 0x0a, 65, 0x0a, 0x0a, 75, 0x0a, 90] =
      .error .sampleError :=
  midbuffer_error_no_partial_result testCodec [72, 0x0a, 65, 0x0a, 0x0a, 75, 0x0a, 90]
    [[72], [65], [], [75]] [] [90]
    ⟨[⟨0, "1.5", 0, 0, 0⟩], 1, false, some ⟨"ScalarDouble", [("name", "PV2")], 31536000⟩⟩
    .sampleError rfl rfl rfl

/-! ### C6: timestamp reconstruction -/

/-- C6: the header line binds `year_in_sec` to the epoch seconds of
Jan 1 of the header's year, and every decoded sample carries
`secs = year_in_sec + secondsintoyear` with `nanos` carried alongside
(the absolute timestamp is `secs + nanos/1e9`, as the data client
reconstructs it); in particular `yearInSec 2020` is the epoch-seconds
value of 2020-01-01T00:00:00.000 UTC, and a year-2020 block whose
sample has `secondsintoyear = 0, nano = 0` decodes to
`secs = 1577836800, nanos = 0`. -/
theorem timestamp_reconstruction :
    (∀ (pb : PBCodec) (st : DecState) (raw : List Byte) (I : PayloadInfo) (pname : String),
        pyStrip raw ≠ [] → st.hit_header = true →
        pb.parseHeader (unescape (pyStrip raw)) = .ok I →
        getSampleParser I.type_ = some pname →
        stepLine pb st raw = .ok { st with
          hit_header := false,
          header := some ⟨pname, dictInsert "name" I.pvname (dictOf I.headers),
                          yearInSec I.year⟩ }) ∧
    (∀ (pb : PBCodec) (st : DecState) (raw : List Byte) (hs : HeaderState) (f : Sample),
        pyStrip raw ≠ [] → st.hit_header = false → st.header = some hs →
        pb.parseSample hs.parserName (unescape (pyStrip raw)) = .ok f →
        stepLine pb st raw = .ok { st with
          i := st.i + 1,
          unpacked_data := st.unpacked_data ++
            [⟨hs.year_in_sec + f.secondsintoyear, f.val, f.nano, f.status, f.severity⟩] }) ∧
    yearInSec 2020 = 1577836800 ∧
    unpack_raw_data testCodec [89, 0x0a, 65] =
      .ok [⟨[("name", "PV2020")], [⟨1577836800, "1.5", 0, 0, 0⟩]⟩] := by
  refine ⟨?_, ?_, by decide, rfl⟩
  · intro pb st raw I pname hnb hih hparse htag
    simp [stepLine, hnb, hih, hparse, htag]
  · intro pb st raw hs f hnb hih hheader hparse
    simp [stepLine, hnb, hih, hheader, hparse]

/-- Witness for C6: the header byte `89` (year 2020) binds
`year_in_sec = 1577836800`, and the sample byte `65`
(`secondsintoyear = 0, nano = 0`) then decodes to `secs = 1577836800`,
`nanos = 0`. -/
theorem timestamp_reconstruction_witness :
    stepLine testCodec initState [89] = .ok { initState with
      hit_header := false,
      header := some ⟨"ScalarDouble", [("name", "PV2020")], 1577836800⟩ } ∧
    stepLine testCodec ⟨[], 0, false, some ⟨"ScalarDouble", [("name", "PV2020")], 1577836800⟩⟩ [65] =
      .ok ⟨[⟨1577836800, "1.5", 0, 0, 0⟩], 1, false,
           some ⟨"ScalarDouble", [("name", "PV2020")], 1577836800⟩⟩ :=
  ⟨timestamp_reconstruction.1 testCodec initState [89] ⟨"PV2020", 2020, 6, []⟩
     "ScalarDouble" (by decide) rfl rfl rfl,
   timestamp_reconstruction.2.1 testCodec
     ⟨[], 0, false, some ⟨"ScalarDouble", [("name", "PV2020")], 1577836800⟩⟩ [65]
     ⟨"ScalarDouble", [("name", "PV2020")], 1577836800⟩ ⟨0, 0, "1.5", 0, 0⟩
     (by decide) rfl rfl rfl⟩

/-! ### C9: stripping of leading/trailing whitespace -/

lemma dropWhile_head_false :
    ∀ (l : List Byte) (a : Byte) (t : List Byte),
      l.dropWhile isSpaceByte = a :: t → isSpaceByte a = false := by
  intro l
  induction l with
  | nil => intro a t h; cases h
  | cons b r ih =>
    intro a t h
    rw [List.dropWhile_cons] at h
    by_cases hb : isSpaceByte b = true
    · rw [if_pos hb] at h
      exact ih a t h
    · rw [if_neg hb] at h
      cases h
      exact Bool.not_eq_true _ ▸ hb

lemma dropWhile_eq_self_of_head {l : List Byte}
    (h : ∀ a t, l = a :: t → isSpaceByte a = false) :
    l.dropWhile isSpaceByte = l := by
  cases l with
  | nil => rfl
  | cons a t =>
    rw [List.dropWhile_cons, if_neg]
    simp [h a t rfl]

lemma dropWhile_getLast? :
    ∀ l : List Byte, l.dropWhile isSpaceByte ≠ [] →
      (l.dropWhile isSpaceByte).getLast? = l.getLast? := by
  intro l
  induction l with
  | nil => intro h; simp at h
  | cons b r ih =>
    intro h
    rw [List.dropWhile_cons] at h ⊢
    by_cases hb : isSpaceByte b = true
    · rw [if_pos hb] at h ⊢
      cases r with
      | nil => simp at h
      | cons c r' => rw [ih h, List.getLast?_cons_cons]
    · rw [if_neg hb]

lemma pyStrip_idem (l : List Byte) : pyStrip (pyStrip l) = pyStrip l := by
  unfold pyStrip
  set m := l.dropWhile isSpaceByte with hm
  set r := m.reverse.dropWhile isSpaceByte with hr
  have hhead_r : ∀ a t, r = a :: t → isSpaceByte a = false := fun a t h =>
    dropWhile_head_false m.reverse a t (hr.symm.trans h)
  have h1 : r.reverse.dropWhile isSpaceByte = r.reverse := by
    apply dropWhile_eq_self_of_head
    intro a t h
    have hne : r ≠ [] := by
      intro h0
      rw [h0] at h
      cases h
    have hlast : r.getLast? = some a := by
      rw [← List.head?_reverse r, h]
      rfl
    have hml : m.reverse.getLast? = some a := by
      rw [← dropWhile_getLast? m.reverse (by rw [← hr]; exact hne), ← hr]
      exact hlast
    have hmhead : m.head? = some a := by
      rw [← List.getLast?_reverse m]
      exact hml
    cases hm2 : m with
    | nil => rw [hm2] at hmhead; cases hmhead
    | cons x t2 =>
      rw [hm2] at hmhead
      have hxa : x = a := by simpa using hmhead
      subst hxa
      exact dropWhile_head_false l x t2 (hm.symm.trans hm2)
  rw [h1, List.reverse_reverse, dropWhile_eq_self_of_head hhead_r]

/-- C9: every line is stripped of leading and trailing ASCII whitespace
before unescaping and parsing: a whitespace-only line acts exactly like
a blank-line block delimiter (it only sets `hit_header`), and
processing any line is identical to processing its stripped form, so
surrounding whitespace never reaches the payload decoder. -/
theorem lines_are_stripped :
    (∀ (pb : PBCodec) (st : DecState) (l : List Byte),
        (∀ b ∈ l, isSpaceByte b = true) →
        stepLine pb st l = .ok { st with hit_header := true }) ∧
    (∀ (pb : PBCodec) (st : DecState) (l : List Byte),
        stepLine pb st l = stepLine pb st (pyStrip l)) := by
  constructor
  · intro pb st l h
    apply stepLine_blank
    unfold pyStrip
    rw [List.dropWhile_eq_nil_iff.mpr h]
    rfl
  · intro pb st l
    simp only [stepLine, pyStrip_idem]

/-- Witness for C9: a line of space, tab and carriage-return bytes is
treated as a block delimiter. -/
theorem lines_are_stripped_witness :
    stepLine testCodec initState [0x20, 0x09, 0x0d] =
      .ok { initState with hit_header := true } :=
  lines_are_stripped.1 testCodec initState [0x20, 0x09, 0x0d] (by decide)

/-! ### C10: the `'name'` key of the metadata dict -/

lemma dictLookup_append (k : String) : ∀ d1 d2 : List (String × String),
    dictLookup k (d1 ++ d2) =
      match dictLookup k d1 with
      | some v => some v
      | none => dictLookup k d2 := by
  intro d1 d2
  induction d1 with
  | nil => rfl
  | cons p t ih =>
    obtain ⟨a, b⟩ := p
    by_cases h : a = k <;> simp [dictLookup, h, ih]

lemma dictLookup_none_of_not_mem {k : String} : ∀ {d : List (String × String)},
    k ∉ d.map Prod.fst → dictLookup k d = none := by
  intro d
  induction d with
  | nil => intro _; rfl
  | cons p t ih =>
    obtain ⟨a, b⟩ := p
    intro h
    simp only [List.map_cons, List.mem_cons] at h
    push_neg at h
    rw [dictLookup, if_neg fun hh => h.1 hh.symm]
    exact ih h.2

lemma dictLookup_map_overwrite {k v : String} : ∀ {d : List (String × String)},
    k ∈ d.map Prod.fst →
    dictLookup k (d.map fun p => if p.1 = k then (k, v) else p) = some v := by
  intro d
  induction d with
  | nil => intro h; cases h
  | cons p t ih =>
    obtain ⟨a, b⟩ := p
    intro h
    rw [List.map_cons]
    by_cases ha : a = k
    · have hh : (if (a, b).1 = k then (k, v) else (a, b)) = (k, v) := by
        simp [ha]
      rw [hh]
      simp [dictLookup]
    · have hh : (if (a, b).1 = k then (k, v) else (a, b)) = (a, b) := by
        simp [ha]
      rw [hh]
      simp only [dictLookup]
      rw [if_neg ha]
      have hmem : k ∈ t.map Prod.fst := by
        simp only [List.map_cons, List.mem_cons] at h
        exact h.resolve_left fun hh2 => ha hh2.symm
      exact ih hmem

lemma dictLookup_map_ne {k k' v : String} (hne : k' ≠ k) : ∀ {d : List (String × String)},
    dictLookup k' (d.map fun p => if p.1 = k then (k, v) else p) = dictLookup k' d := by
  intro d
  induction d with
  | nil => rfl
  | cons p t ih =>
    obtain ⟨a, b⟩ := p
    rw [List.map_cons]
    by_cases ha : a = k
    · subst ha
      have hh : (if (a, b).1 = a then (a, v) else (a, b)) = (a, v) := by
        simp
      rw [hh]
      simp only [dictLookup]
      rw [if_neg fun hc : a = k' => hne hc.symm, if_neg fun hc : a = k' => hne hc.symm]
      exact ih
    · have hh : (if (a, b).1 = k then (k, v) else (a, b)) = (a, b) := by
        simp [ha]
      rw [hh]
      simp only [dictLookup]
      by_cases ha' : a = k'
      · rw [if_pos ha', if_pos ha']
      · rw [if_neg ha', if_neg ha']
        exact ih

lemma mem_map_overwrite {k v v' : String} {d : List (String × String)}
    (h : (k, v') ∈ d.map fun p => if p.1 = k then (k, v) else p) : v' = v := by
  obtain ⟨p, hp, hf⟩ := List.mem_map.mp h
  by_cases hpk : p.1 = k
  · rw [if_pos hpk] at hf
    cases hf
    rfl
  · rw [if_neg hpk] at hf
    exact absurd (by rw [hf]) hpk

lemma dictLookup_insert_self (k v : String) (d : List (String × String)) :
    dictLookup k (dictInsert k v d) = some v := by
  unfold dictInsert
  by_cases h : k ∈ d.map Prod.fst
  · rw [if_pos (by simpa using h)]
    exact dictLookup_map_overwrite h
  · rw [if_neg (by simpa using h), dictLookup_append, dictLookup_none_of_not_mem h]
    simp [dictLookup]

lemma dictLookup_insert_ne {k k' : String} (v : String) (d : List (String × String))
    (hne : k' ≠ k) :
    dictLookup k' (dictInsert k v d) = dictLookup k' d := by
  unfold dictInsert
  by_cases h : k ∈ d.map Prod.fst
  · rw [if_pos (by simpa using h)]
    exact dictLookup_map_ne hne
  · rw [if_neg (by simpa using h), dictLookup_append]
    cases hl : dictLookup k' d <;> simp [dictLookup, hne.symm]

lemma mem_insert_name {k v v' : String} {d : List (String × String)}
    (h : (k, v') ∈ dictInsert k v d) : v' = v := by
  unfold dictInsert at h
  by_cases hc : k ∈ d.map Prod.fst
  · rw [if_pos (by simpa using hc)] at h
    exact mem_map_overwrite h
  · rw [if_neg (by simpa using hc)] at h
    rcases List.mem_append.mp h with h1 | h1
    · exact absurd (List.mem_map_of_mem Prod.fst h1) hc
    · have h2 := List.mem_singleton.mp h1
      cases h2
      rfl

/-- C10: in the returned metadata dict, the key `'name'` is bound to the
header's PV name; if the extra header pairs themselves contain a key
`'name'`, its value is silently overwritten by the PV name (no pair with
key `'name'` and another value survives), while all other keys keep the
value they had; concretely, a header with extra pairs
`[("name","shadowed"), ("units","mA")]` and PV name `PVN` yields the
metadata `[("name","PVN"), ("units","mA")]`. -/
theorem name_header_overwritten :
    (∀ (hdrs : List (String × String)) (pv : String),
      dictLookup "name" (dictInsert "name" pv (dictOf hdrs)) = some pv ∧
      (∀ k, k ≠ "name" →
        dictLookup k (dictInsert "name" pv (dictOf hdrs)) =
          dictLookup k (dictOf hdrs)) ∧
      (∀ v, ("name", v) ∈ dictInsert "name" pv (dictOf hdrs) → v = pv)) ∧
    unpack_raw_data testCodec [78, 0x0a, 65] =
      .ok [⟨[("name", "PVN"), ("units", "mA")], [⟨0, "1.5", 0, 0, 0⟩]⟩] :=
  ⟨fun hdrs pv =>
    ⟨dictLookup_insert_self "name" pv (dictOf hdrs),
     fun _ hk => dictLookup_insert_ne pv (dictOf hdrs) hk,
     fun _ hv => mem_insert_name hv⟩,
   rfl⟩

/-- Witness for C10: with extra headers `[("name","shadowed"),
("units","mA")]` and PV name `PVN`, the metadata binds `'name'` to
`PVN` and keeps `'units'` unchanged. -/
theorem name_header_overwritten_witness :
    dictLookup "name"
      (dictInsert "name" "PVN" (dictOf [("name", "shadowed"), ("units", "mA")])) =
        some "PVN" ∧
    dictLookup "units"
      (dictInsert "name" "PVN" (dictOf [("name", "shadowed"), ("units", "mA")])) =
        dictLookup "units" (dictOf [("name", "shadowed"), ("units", "mA")]) :=
  ⟨(name_header_overwritten.1 [("name", "shadowed"), ("units", "mA")] "PVN").1,
   (name_header_overwritten.1 [("name", "shadowed"), ("units", "mA")] "PVN").2.1
     "units" (by decide)⟩

end PyArchAppl
